import Mathlib

/-!
Shallow embedding of the Aurora C runtime (src/runtime/c_runtime.c).

The runtime is six C functions over the host libc: `aurora_println` and
`aurora_print` (wrappers over printf to stdout), `aurora_alloc`,
`aurora_free`, `aurora_realloc` (wrappers over malloc/free/realloc), and
`aurora_panic` (fprintf to stderr followed by abort).

The embedding models the process state the runtime can touch: the host
heap (an association list from addresses to byte blocks, plus a fresh
address counter) and the two host streams as byte lists.  The runtime
itself adds no state of its own, matching the source, which has no
globals.  Host nondeterminism (allocation failure, uninitialized memory
contents) is externalized into explicit parameters `ok` and `init`.
-/

namespace Aurora

/-- A byte value (intended range 0–255). -/
abbrev Byte := Nat

/-- A C string argument: `none` is the null pointer; `some bs` is a
pointer to the bytes `bs` (the terminating NUL excluded). -/
abbrev CStr := Option (List Byte)

/-- Process state visible to the runtime: the host heap (blocks keyed by
address, plus the next fresh address) and the two standard streams.
There is deliberately no further field: the source file defines no
global, counter, registry or cache of its own. -/
structure RState where
  blocks : List (Nat × List Byte)
  nextAddr : Nat
  stdout : List Byte
  stderr : List Byte
deriving Repr, DecidableEq

/-- Association-list lookup on the heap block list. -/
def lookupA : List (Nat × List Byte) → Nat → Option (List Byte)
  | [], _ => none
  | (k, v) :: rest, a => if k = a then some v else lookupA rest a

/-- Read the block stored at address `a`. -/
def lookupBlock (σ : RState) (a : Nat) : Option (List Byte) :=
  lookupA σ.blocks a

/-- Replace the contents of the block keyed `a` with `data`. -/
def writeA (l : List (Nat × List Byte)) (a : Nat) (data : List Byte) :
    List (Nat × List Byte) :=
  l.map (fun q => if q.1 = a then (q.1, data) else q)

/-- The caller (the compiled Aurora program) writing `data` over the
block it owns at address `a`. -/
def writeBlock (σ : RState) (a : Nat) (data : List Byte) : RState :=
  { σ with blocks := writeA σ.blocks a data }

/-- Remove the block keyed `a` from the heap block list. -/
def eraseA (l : List (Nat × List Byte)) (a : Nat) : List (Nat × List Byte) :=
  l.filter (fun q => q.1 != a)

/-- Model of the host malloc.  `ok` is the host's success decision for
this call; `init i` is the uninitialized byte found at offset `i` of a
fresh block.  On success a fresh address is returned and a block of `n`
such bytes installed; on failure the null pointer is returned and the
heap is untouched.  A size of zero is not special-cased, matching the
host contract. -/
def hostMalloc (ok : Bool) (init : Nat → Byte) (n : Nat) (σ : RState) :
    Option Nat × RState :=
  if ok then
    (some σ.nextAddr,
      { σ with
        blocks := (σ.nextAddr, (List.range n).map init) :: σ.blocks,
        nextAddr := σ.nextAddr + 1 })
  else (none, σ)

/-- Model of the host free: a null pointer is a no-op; otherwise the
block is removed from the heap. -/
def hostFree (p : Option Nat) (σ : RState) : RState :=
  match p with
  | none => σ
  | some a => { σ with blocks := eraseA σ.blocks a }

/-- Model of the host realloc.  A null pointer acts as malloc.  For a
live block, success moves the contents to a fresh block of size `n`
whose first min(old, n) bytes are copied from the old block and whose
remaining bytes are uninitialized; failure leaves the old block intact
and returns null.  Passing a pointer into no live block is undefined in
C and modelled as a failing call. -/
def hostRealloc (ok : Bool) (init : Nat → Byte) (p : Option Nat) (n : Nat)
    (σ : RState) : Option Nat × RState :=
  match p with
  | none => hostMalloc ok init n σ
  | some a =>
    match lookupA σ.blocks a with
    | none => (none, σ)
    | some b =>
      if ok then
        (some σ.nextAddr,
          { σ with
            blocks := (σ.nextAddr, (List.range n).map (fun i => b.getD i (init i)))
              :: eraseA σ.blocks a,
            nextAddr := σ.nextAddr + 1 })
      else (none, σ)

/-- Host write to the standard output stream. -/
def hostWriteStdout (bs : List Byte) (σ : RState) : RState :=
  { σ with stdout := σ.stdout ++ bs }

/-- Host write to the standard error stream. -/
def hostWriteStderr (bs : List Byte) (σ : RState) : RState :=
  { σ with stderr := σ.stderr ++ bs }

/-- Bytes of an ASCII string literal. -/
def asciiBytes (s : String) : List Byte := s.data.map Char.toNat

/-- Rendering of a `%s` conversion by the host C library: a null pointer
argument prints the literal text "(null)" (glibc behavior, which the
source relies on in `aurora_panic`). -/
def fmtS : CStr → List Byte
  | some s => s
  | none => asciiBytes "(null)"

/-- Rendering of a `%d` conversion: decimal digits, with a leading minus
sign for negative values. -/
def fmtD (n : Int) : List Byte := asciiBytes (toString n)

/-- Translation of
`void aurora_println(const char* str) { if (str) { printf("%s\n", str); } }`:
a null check, then printf of the bytes followed by one 0x0A byte. -/
def aurora_println (str : CStr) (σ : RState) : RState :=
  match str with
  | some s => hostWriteStdout (s ++ [10]) σ
  | none => σ

/-- Translation of
`void aurora_print(const char* str) { if (str) { printf("%s", str); } }`:
a null check, then printf of exactly the bytes. -/
def aurora_print (str : CStr) (σ : RState) : RState :=
  match str with
  | some s => hostWriteStdout s σ
  | none => σ

/-- Translation of `void* aurora_alloc(size_t size) { return malloc(size); }`. -/
def aurora_alloc (ok : Bool) (init : Nat → Byte) (n : Nat) (σ : RState) :
    Option Nat × RState :=
  hostMalloc ok init n σ

/-- Translation of `void aurora_free(void* ptr) { free(ptr); }`. -/
def aurora_free (p : Option Nat) (σ : RState) : RState :=
  hostFree p σ

/-- Translation of
`void* aurora_realloc(void* ptr, size_t size) { return realloc(ptr, size); }`. -/
def aurora_realloc (ok : Bool) (init : Nat → Byte) (p : Option Nat) (n : Nat)
    (σ : RState) : Option Nat × RState :=
  hostRealloc ok init p n σ

/-- How the process ends: a normal exit carries its code and whether
registered at-exit hooks ran; a signal-terminated exit carries the
signal number. -/
inductive ProcExit where
  | normal (code : Nat) (ranAtExitHooks : Bool)
  | signaled (sig : Nat)
deriving Repr, DecidableEq

/-- Model of the host abort(): the process dies by SIGABRT (signal 6),
bypassing at-exit hooks and normal exit cleanup. -/
def hostAbort : ProcExit := ProcExit.signaled 6

/-- Translation of
`void aurora_panic(const char* msg, const char* file, int line) {
   fprintf(stderr, "Aurora panic at %s:%d: %s\n", file, line, msg);
   abort(); }`.
The fprintf is expanded conversion by conversion; the call never
returns, which the embedding renders by yielding the terminal
`ProcExit` alongside the final state. -/
def aurora_panic (msg file : CStr) (l : Int) (σ : RState) :
    RState × ProcExit :=
  (hostWriteStderr
    (asciiBytes "Aurora panic at " ++ fmtS file ++ asciiBytes ":" ++
      fmtD l ++ asciiBytes ": " ++ fmtS msg ++ [10]) σ,
   hostAbort)

/-- Heap well-formedness: every live block sits below the fresh-address
counter, so the counter really is fresh. -/
def WF (σ : RState) : Prop := ∀ p ∈ σ.blocks, p.1 < σ.nextAddr

instance : DecidablePred WF := fun σ =>
  decidable_of_iff (∀ p ∈ σ.blocks, p.1 < σ.nextAddr) Iff.rfl

/-! Helper lemmas about the association-list heap. -/

theorem lookupA_cons_self (k : Nat) (v : List Byte) (l : List (Nat × List Byte)) :
    lookupA ((k, v) :: l) k = some v := by
  simp [lookupA]

theorem lookupA_cons_ne (k a : Nat) (v : List Byte) (l : List (Nat × List Byte))
    (h : k ≠ a) : lookupA ((k, v) :: l) a = lookupA l a := by
  simp [lookupA, h]

theorem eraseA_cons (k : Nat) (v : List Byte) (l : List (Nat × List Byte)) (a : Nat) :
    eraseA ((k, v) :: l) a = if k = a then eraseA l a else (k, v) :: eraseA l a := by
  by_cases hk : k = a <;> simp [eraseA, List.filter_cons, hk]

theorem writeA_cons (k : Nat) (v : List Byte) (l : List (Nat × List Byte))
    (a : Nat) (data : List Byte) :
    writeA ((k, v) :: l) a data =
      (if k = a then (k, data) else (k, v)) :: writeA l a data := by
  by_cases hk : k = a <;> simp [writeA, hk]

theorem lookupA_eraseA_ne (l : List (Nat × List Byte)) (a a' : Nat) (h : a' ≠ a) :
    lookupA (eraseA l a) a' = lookupA l a' := by
  induction l with
  | nil => rfl
  | cons q rest ih =>
    obtain ⟨k, v⟩ := q
    rw [eraseA_cons]
    by_cases hk : k = a
    · rw [if_pos hk, ih, lookupA_cons_ne k a' v rest (hk ▸ fun he => h he.symm)]
    · by_cases hk' : k = a'
      · subst hk'
        rw [if_neg hk, lookupA_cons_self, lookupA_cons_self]
      · rw [if_neg hk, lookupA_cons_ne k a' _ _ hk', lookupA_cons_ne k a' v rest hk', ih]

theorem lookupA_writeA_self (l : List (Nat × List Byte)) (a : Nat)
    (data b : List Byte) (h : lookupA l a = some b) :
    lookupA (writeA l a data) a = some data := by
  induction l with
  | nil => simp [lookupA] at h
  | cons q rest ih =>
    obtain ⟨k, v⟩ := q
    rw [writeA_cons]
    by_cases hk : k = a
    · rw [if_pos hk, hk, lookupA_cons_self]
    · rw [if_neg hk, lookupA_cons_ne k a _ _ hk]
      rw [lookupA_cons_ne k a v rest hk] at h
      exact ih h

theorem WF_writeBlock (σ : RState) (a : Nat) (data : List Byte) (h : WF σ) :
    WF (writeBlock σ a data) := by
  intro p hp
  simp only [writeBlock, writeA, List.mem_map] at hp
  obtain ⟨q, hq, hpq⟩ := hp
  have h1 := h q hq
  by_cases hqa : q.1 = a
  · rw [if_pos hqa] at hpq
    rw [← hpq]
    exact h1
  · rw [if_neg hqa] at hpq
    rw [← hpq]
    exact h1

theorem WF_alloc (ok : Bool) (init : Nat → Byte) (n : Nat) (σ : RState)
    (h : WF σ) : WF (aurora_alloc ok init n σ).2 := by
  cases ok with
  | false => exact h
  | true =>
    intro p hp
    simp only [aurora_alloc, hostMalloc, if_true] at hp ⊢
    rcases List.mem_cons.mp hp with hph | hpt
    · rw [hph]
      exact Nat.lt_succ_self _
    · exact Nat.lt_succ_of_lt (h p hpt)

theorem take_range_map_getD (b : List Byte) (f : Nat → Byte) (n : Nat) :
    ((List.range n).map (fun i => b.getD i (f i))).take (min b.length n)
      = b.take (min b.length n) := by
  apply List.ext_getElem
  · simp only [List.length_take, List.length_map, List.length_range]
    omega
  · intro i h1 h2
    have hi : i < min b.length n := by
      simp only [List.length_take, List.length_map, List.length_range] at h1
      omega
    have hib : i < b.length := lt_of_lt_of_le hi (Nat.min_le_left _ _)
    rw [List.getElem_take, List.getElem_take, List.getElem_map, List.getElem_range]
    exact List.getD_eq_getElem b (f i) hib

theorem lookupBlock_free_frame (σ : RState) (a a' : Nat) (h : a' ≠ a) :
    lookupBlock (aurora_free (some a') σ) a = lookupBlock σ a :=
  lookupA_eraseA_ne σ.blocks a' a (Ne.symm h)

theorem lookupBlock_alloc_frame (ok : Bool) (init : Nat → Byte) (m : Nat)
    (σ : RState) (a : Nat) (h : a ≠ σ.nextAddr) :
    lookupBlock (aurora_alloc ok init m σ).2 a = lookupBlock σ a := by
  cases ok with
  | false => rfl
  | true =>
    exact lookupA_cons_ne σ.nextAddr a ((List.range m).map init) σ.blocks (Ne.symm h)

theorem lookupBlock_realloc_frame (ok : Bool) (init : Nat → Byte) (p : Option Nat)
    (m : Nat) (σ : RState) (a : Nat) (h1 : p ≠ some a) (h2 : a ≠ σ.nextAddr) :
    lookupBlock (aurora_realloc ok init p m σ).2 a = lookupBlock σ a := by
  cases p with
  | none => exact lookupBlock_alloc_frame ok init m σ a h2
  | some c =>
    have hc : a ≠ c := by
      intro he
      exact h1 (by rw [he])
    simp only [aurora_realloc, hostRealloc]
    cases hl : lookupA σ.blocks c with
    | none => rfl
    | some b =>
      cases ok with
      | false => rfl
      | true =>
        show lookupA ((σ.nextAddr, (List.range m).map (fun i => b.getD i (init i)))
            :: eraseA σ.blocks c) a = lookupA σ.blocks a
        rw [lookupA_cons_ne _ _ _ _ (Ne.symm h2)]
        exact lookupA_eraseA_ne σ.blocks c a hc

/-! Claim theorems. -/

/-- C1: for every message, file and line number, `aurora_panic` appends to
standard error exactly the bytes "Aurora panic at <file>:<line>: <message>\n"
(and touches no other channel), then terminates the process abortively:
the call yields a terminal `ProcExit` instead of returning, the exit is
the abort signal, which is not a normal exit for any code, so no at-exit
hooks run and the status is distinguishable from a normal exit. -/
theorem aurora_panic_diagnostic_then_abort (msg file : CStr) (l : Int) (σ : RState) :
    (aurora_panic msg file l σ).1.stderr =
      σ.stderr ++ (asciiBytes "Aurora panic at " ++ fmtS file ++ asciiBytes ":" ++
        fmtD l ++ asciiBytes ": " ++ fmtS msg ++ [10]) ∧
    (aurora_panic msg file l σ).1.stdout = σ.stdout ∧
    (aurora_panic msg file l σ).1.blocks = σ.blocks ∧
    (aurora_panic msg file l σ).2 = ProcExit.signaled 6 ∧
    ∀ code ran, (aurora_panic msg file l σ).2 ≠ ProcExit.normal code ran := by
  refine ⟨rfl, rfl, rfl, rfl, ?_⟩
  intro code ran h
  simp [aurora_panic, hostAbort] at h

/-- C2: a null message or null file argument to `aurora_panic` makes the
diagnostic carry the literal text "(null)" in that argument's position
(the host printf's rendering of a null `%s`), and the panic still writes
the diagnostic and aborts. -/
theorem aurora_panic_null_substitution (s : List Byte) (l : Int) (σ : RState) :
    (aurora_panic none (some s) l σ).1.stderr =
      σ.stderr ++ (asciiBytes "Aurora panic at " ++ s ++ asciiBytes ":" ++
        fmtD l ++ asciiBytes ": " ++ asciiBytes "(null)" ++ [10]) ∧
    (aurora_panic (some s) none l σ).1.stderr =
      σ.stderr ++ (asciiBytes "Aurora panic at " ++ asciiBytes "(null)" ++
        asciiBytes ":" ++ fmtD l ++ asciiBytes ": " ++ s ++ [10]) ∧
    (aurora_panic none none l σ).1.stderr =
      σ.stderr ++ (asciiBytes "Aurora panic at " ++ asciiBytes "(null)" ++
        asciiBytes ":" ++ fmtD l ++ asciiBytes ": " ++ asciiBytes "(null)" ++ [10]) ∧
    (aurora_panic none (some s) l σ).2 = hostAbort ∧
    (aurora_panic (some s) none l σ).2 = hostAbort ∧
    (aurora_panic none none l σ).2 = hostAbort :=
  ⟨rfl, rfl, rfl, rfl, rfl, rfl⟩

/-- C3: with a non-null string, `aurora_println` appends exactly the
string's bytes followed by one 0x0A byte to standard output and changes
nothing else, and `aurora_print` appends exactly the string's bytes and
changes nothing else; the full-state equalities show no other stream or
heap cell is written. -/
theorem aurora_println_print_exact_output (s : List Byte) (σ : RState) :
    aurora_println (some s) σ = { σ with stdout := σ.stdout ++ (s ++ [10]) } ∧
    aurora_print (some s) σ = { σ with stdout := σ.stdout ++ s } :=
  ⟨rfl, rfl⟩

/-- C4: `aurora_println` and `aurora_print` on a null pointer leave the
whole state untouched and return normally: a no-op, not a fault. -/
theorem aurora_print_null_noop (σ : RState) :
    aurora_println none σ = σ ∧ aurora_print none σ = σ :=
  ⟨rfl, rfl⟩

/-- C7: null pointers are benign heap sentinels: `aurora_free` of null
leaves the state unchanged, and `aurora_realloc` of null at any size is
the same operation as `aurora_alloc` of that size. -/
theorem aurora_null_heap_sentinels (ok : Bool) (init : Nat → Byte) (n : Nat)
    (σ : RState) :
    aurora_free none σ = σ ∧
    aurora_realloc ok init none n σ = aurora_alloc ok init n σ :=
  ⟨rfl, rfl⟩

/-- C8: the heap primitives are exact pass-throughs to the host heap:
`aurora_alloc` returns precisely the host malloc's result and
`aurora_realloc` precisely the host realloc's result, for every size
including zero, with no reinterpretation by the runtime. -/
theorem aurora_heap_passthrough (ok : Bool) (init : Nat → Byte)
    (p : Option Nat) (n : Nat) (σ : RState) :
    aurora_alloc ok init n σ = hostMalloc ok init n σ ∧
    aurora_realloc ok init p n σ = hostRealloc ok init p n σ ∧
    aurora_alloc ok init 0 σ = hostMalloc ok init 0 σ ∧
    aurora_realloc ok init p 0 σ = hostRealloc ok init p 0 σ :=
  ⟨rfl, rfl, rfl, rfl⟩

/-- C9: each primitive's effect is confined to its documented channel:
the heap primitives never write a byte to standard output or standard
error (so allocation failure is surfaced only as a null return, never
logged), the output primitives never touch the heap or standard error,
and panic never touches the heap or standard output.  The state type
itself has only host components, matching a runtime with no private
globals, counters, registries or caches. -/
theorem aurora_runtime_frame (ok : Bool) (init : Nat → Byte) (p : Option Nat)
    (n : Nat) (s msg file : CStr) (l : Int) (σ : RState) :
    ((aurora_alloc ok init n σ).2.stdout = σ.stdout ∧
      (aurora_alloc ok init n σ).2.stderr = σ.stderr) ∧
    ((aurora_free p σ).stdout = σ.stdout ∧
      (aurora_free p σ).stderr = σ.stderr) ∧
    ((aurora_realloc ok init p n σ).2.stdout = σ.stdout ∧
      (aurora_realloc ok init p n σ).2.stderr = σ.stderr) ∧
    ((aurora_println s σ).blocks = σ.blocks ∧
      (aurora_println s σ).nextAddr = σ.nextAddr ∧
      (aurora_println s σ).stderr = σ.stderr) ∧
    ((aurora_print s σ).blocks = σ.blocks ∧
      (aurora_print s σ).nextAddr = σ.nextAddr ∧
      (aurora_print s σ).stderr = σ.stderr) ∧
    ((aurora_panic msg file l σ).1.blocks = σ.blocks ∧
      (aurora_panic msg file l σ).1.nextAddr = σ.nextAddr ∧
      (aurora_panic msg file l σ).1.stdout = σ.stdout) := by
  refine ⟨?_, ?_, ?_, ?_, ?_, ⟨rfl, rfl, rfl⟩⟩
  · cases ok <;> exact ⟨rfl, rfl⟩
  · cases p <;> exact ⟨rfl, rfl⟩
  · cases p with
    | none => cases ok <;> exact ⟨rfl, rfl⟩
    | some a =>
      simp only [aurora_realloc, hostRealloc]
      cases lookupA σ.blocks a with
      | none => exact ⟨rfl, rfl⟩
      | some b => cases ok <;> exact ⟨rfl, rfl⟩
  · cases s <;> exact ⟨rfl, rfl, rfl⟩
  · cases s <;> exact ⟨rfl, rfl, rfl⟩

/-- C10: the runtime is deterministic.  The bytes each output primitive
appends are a fixed function of the argument's byte contents alone — the
drop-prefix of the stream after the call equals a closed expression in
the argument, whatever the prior state — and any two invocations of any
primitive with identical arguments on identical states return identical
values and states. -/
theorem aurora_runtime_deterministic (s : List Byte) (msg file : CStr) (l : Int)
    (ok : Bool) (init : Nat → Byte) (p : Option Nat) (n : Nat)
    (σ σ' : RState) (h : σ = σ') :
    (aurora_print (some s) σ).stdout.drop σ.stdout.length = s ∧
    (aurora_println (some s) σ).stdout.drop σ.stdout.length = s ++ [10] ∧
    (aurora_panic msg file l σ).1.stderr.drop σ.stderr.length =
      asciiBytes "Aurora panic at " ++ fmtS file ++ asciiBytes ":" ++
        fmtD l ++ asciiBytes ": " ++ fmtS msg ++ [10] ∧
    aurora_alloc ok init n σ = aurora_alloc ok init n σ' ∧
    aurora_free p σ = aurora_free p σ' ∧
    aurora_realloc ok init p n σ = aurora_realloc ok init p n σ' ∧
    aurora_print (some s) σ = aurora_print (some s) σ' ∧
    aurora_println (some s) σ = aurora_println (some s) σ' ∧
    aurora_panic msg file l σ = aurora_panic msg file l σ' := by
  subst h
  refine ⟨?_, ?_, ?_, rfl, rfl, rfl, rfl, rfl, rfl⟩
  · simp [aurora_print, hostWriteStdout, List.drop_left]
  · simp [aurora_println, hostWriteStdout, List.drop_left]
  · simp [aurora_panic, hostWriteStderr, List.drop_left]

/-- Witness for C10 at concrete inputs. -/
theorem aurora_runtime_deterministic_witness :
    (⟨[], 0, asciiBytes "x", []⟩ : RState) = ⟨[], 0, asciiBytes "x", []⟩ ∧
    (aurora_print (some (asciiBytes "ab")) ⟨[], 0, asciiBytes "x", []⟩).stdout.drop
      (asciiBytes "x").length = asciiBytes "ab" :=
  ⟨rfl, (aurora_runtime_deterministic (asciiBytes "ab") none none 0 true
    (fun _ => 0) none 0 ⟨[], 0, asciiBytes "x", []⟩ ⟨[], 0, asciiBytes "x", []⟩ rfl).1⟩

/-- C5: for every size n > 0, `aurora_alloc` returns either null or a
fresh address holding a valid block of length n, the heap stays
well-formed, and writing n bytes there then reading them back yields the
same bytes — also after freeing another pointer, allocating further
blocks, or reallocating another pointer, so the written bytes persist
until free or realloc is applied to this block itself. -/
theorem aurora_alloc_write_read (ok : Bool) (init : Nat → Byte) (n : Nat)
    (σ : RState) (hwf : WF σ) (hn : 0 < n) :
    (aurora_alloc ok init n σ).1 = none ∨
    (∃ a, (aurora_alloc ok init n σ).1 = some a ∧
      WF (aurora_alloc ok init n σ).2 ∧
      (∃ b, lookupBlock (aurora_alloc ok init n σ).2 a = some b ∧ b.length = n) ∧
      ∀ data : List Byte,
        lookupBlock (writeBlock (aurora_alloc ok init n σ).2 a data) a = some data ∧
        (∀ a', a' ≠ a →
          lookupBlock (aurora_free (some a')
            (writeBlock (aurora_alloc ok init n σ).2 a data)) a = some data) ∧
        (∀ ok' init' m,
          lookupBlock (aurora_alloc ok' init' m
            (writeBlock (aurora_alloc ok init n σ).2 a data)).2 a = some data) ∧
        (∀ ok' init' m p', p' ≠ some a →
          lookupBlock (aurora_realloc ok' init' p' m
            (writeBlock (aurora_alloc ok init n σ).2 a data)).2 a = some data)) := by
  cases ok with
  | false => exact Or.inl rfl
  | true =>
    refine Or.inr ⟨σ.nextAddr, rfl, WF_alloc true init n σ hwf,
      ⟨(List.range n).map init, lookupA_cons_self _ _ _, by simp⟩, ?_⟩
    intro data
    have hW : lookupBlock (writeBlock (aurora_alloc true init n σ).2 σ.nextAddr data)
        σ.nextAddr = some data :=
      lookupA_writeA_self _ σ.nextAddr data _
        (lookupA_cons_self σ.nextAddr ((List.range n).map init) σ.blocks)
    have hne : σ.nextAddr ≠
        (writeBlock (aurora_alloc true init n σ).2 σ.nextAddr data).nextAddr :=
      Nat.ne_of_lt (Nat.lt_succ_self _)
    refine ⟨hW, ?_, ?_, ?_⟩
    · intro a' ha'
      rw [lookupBlock_free_frame _ _ _ ha']
      exact hW
    · intro ok' init' m
      rw [lookupBlock_alloc_frame ok' init' m _ σ.nextAddr hne]
      exact hW
    · intro ok' init' m p' hp'
      rw [lookupBlock_realloc_frame ok' init' p' m _ σ.nextAddr hp' hne]
      exact hW

/-- Witness for C5: a successful 16-byte allocation on the empty
well-formed state. -/
theorem aurora_alloc_write_read_witness :
    WF (⟨[], 0, [], []⟩ : RState) ∧ 0 < 16 ∧
    ((aurora_alloc true (fun _ => 0) 16 ⟨[], 0, [], []⟩).1 = none ∨
    (∃ a, (aurora_alloc true (fun _ => 0) 16 ⟨[], 0, [], []⟩).1 = some a ∧
      WF (aurora_alloc true (fun _ => 0) 16 ⟨[], 0, [], []⟩).2 ∧
      (∃ b, lookupBlock (aurora_alloc true (fun _ => 0) 16 ⟨[], 0, [], []⟩).2 a
          = some b ∧ b.length = 16) ∧
      ∀ data : List Byte,
        lookupBlock (writeBlock (aurora_alloc true (fun _ => 0) 16
          ⟨[], 0, [], []⟩).2 a data) a = some data ∧
        (∀ a', a' ≠ a →
          lookupBlock (aurora_free (some a')
            (writeBlock (aurora_alloc true (fun _ => 0) 16
              ⟨[], 0, [], []⟩).2 a data)) a = some data) ∧
        (∀ ok' init' m,
          lookupBlock (aurora_alloc ok' init' m
            (writeBlock (aurora_alloc true (fun _ => 0) 16
              ⟨[], 0, [], []⟩).2 a data)).2 a = some data) ∧
        (∀ ok' init' m p', p' ≠ some a →
          lookupBlock (aurora_realloc ok' init' p' m
            (writeBlock (aurora_alloc true (fun _ => 0) 16
              ⟨[], 0, [], []⟩).2 a data)).2 a = some data))) :=
  ⟨by decide, by decide,
    aurora_alloc_write_read true (fun _ => 0) 16 ⟨[], 0, [], []⟩ (by decide) (by decide)⟩

/-- C6: a successful `aurora_realloc` of a live block of old contents b
to size n yields a block of length n whose first min(old size, n) bytes
equal the corresponding bytes of the old block. -/
theorem aurora_realloc_preserves_prefix (ok : Bool) (init : Nat → Byte)
    (p n : Nat) (σ : RState) (b : List Byte)
    (hb : lookupBlock σ p = some b) (a' : Nat)
    (hs : (aurora_realloc ok init (some p) n σ).1 = some a') :
    ∃ nb, lookupBlock (aurora_realloc ok init (some p) n σ).2 a' = some nb ∧
      nb.length = n ∧
      nb.take (min b.length n) = b.take (min b.length n) := by
  have hb' : lookupA σ.blocks p = some b := hb
  cases ok with
  | false =>
    exfalso
    simp [aurora_realloc, hostRealloc, hb'] at hs
  | true =>
    have hres : aurora_realloc true init (some p) n σ =
        (some σ.nextAddr,
         { σ with
           blocks := (σ.nextAddr, (List.range n).map (fun i => b.getD i (init i)))
             :: eraseA σ.blocks p,
           nextAddr := σ.nextAddr + 1 }) := by
      simp [aurora_realloc, hostRealloc, hb']
    rw [hres] at hs ⊢
    obtain rfl : σ.nextAddr = a' := Option.some.inj hs
    exact ⟨(List.range n).map (fun i => b.getD i (init i)),
      lookupA_cons_self _ _ _, by simp, take_range_map_getD b init n⟩

/-- Witness for C6: a live 4-byte block reallocated to 8 bytes keeps its
first 4 bytes. -/
theorem aurora_realloc_preserves_prefix_witness :
    lookupBlock ⟨[(0, [1, 2, 3, 4])], 1, [], []⟩ 0 = some [1, 2, 3, 4] ∧
    (aurora_realloc true (fun _ => 9) (some 0) 8
      ⟨[(0, [1, 2, 3, 4])], 1, [], []⟩).1 = some 1 ∧
    ∃ nb, lookupBlock (aurora_realloc true (fun _ => 9) (some 0) 8
        ⟨[(0, [1, 2, 3, 4])], 1, [], []⟩).2 1 = some nb ∧
      nb.length = 8 ∧
      nb.take (min (List.length ([1, 2, 3, 4] : List Byte)) 8)
        = List.take (min (List.length ([1, 2, 3, 4] : List Byte)) 8) [1, 2, 3, 4] :=
  ⟨rfl, rfl,
    aurora_realloc_preserves_prefix true (fun _ => 9) 0 8
      ⟨[(0, [1, 2, 3, 4])], 1, [], []⟩ [1, 2, 3, 4] rfl 1 rfl⟩

/-- Witness for C1 at Scenario E's inputs: panic with message "boom",
file "x.au", line 42 writes exactly the expected diagnostic. -/
theorem aurora_panic_diagnostic_then_abort_witness :
    (aurora_panic (some (asciiBytes "boom")) (some (asciiBytes "x.au")) 42
        ⟨[], 0, [], []⟩).1.stderr =
      [] ++ (asciiBytes "Aurora panic at " ++ fmtS (some (asciiBytes "x.au")) ++
        asciiBytes ":" ++ fmtD 42 ++ asciiBytes ": " ++
        fmtS (some (asciiBytes "boom")) ++ [10]) :=
  (aurora_panic_diagnostic_then_abort (some (asciiBytes "boom"))
    (some (asciiBytes "x.au")) 42 ⟨[], 0, [], []⟩).1

end Aurora
